import Mathlib

/-!
# Verification of the `ResourceResolver` snippet (`src/packages/vk-io/src/snippets/resource-resolver.ts`)

This file is a shallow embedding of the resource resolver.  Strings are
modelled as `List Char` internally (converted from `String` at the public
boundary), JavaScript numbers appearing here are exact integers (`Int`) —
every identifier handled by the resolver is integral — and the regular
expressions of the source are embedded as executable character-level
functions with JavaScript regex semantics (leftmost match, alternation
tried left to right, greedy repetition with the backtracking behaviour
worked out for each concrete pattern).

The collaborator `vk.api.utils.resolveScreenName` is modelled as an
explicit function parameter `lookup : String → LookupResponse`.
The `async`/`Promise` layer is erased: the resolver performs at most one
collaborator call and is otherwise pure, so each method is a plain
function returning `ResolveResult`.
-/

/-! ## Character classes (ASCII, as used by the JavaScript regexes) -/

/-- The regex class `\d`: ASCII digits `0`–`9`. -/
def isDigitCh (c : Char) : Bool :=
  decide (48 ≤ c.toNat ∧ c.toNat ≤ 57)

/-- ASCII letters, the class `[a-zA-Z]`. -/
def isAlphaCh (c : Char) : Bool :=
  decide (65 ≤ c.toNat ∧ c.toNat ≤ 90) || decide (97 ≤ c.toNat ∧ c.toNat ≤ 122)

/-- White space removed by JavaScript `String.prototype.trim` (ASCII part:
space, tab, line feed, carriage return, vertical tab, form feed). -/
def isWsCh (c : Char) : Bool :=
  decide (c.toNat = 32) || decide (c.toNat = 9) || decide (c.toNat = 10) ||
  decide (c.toNat = 13) || decide (c.toNat = 11) || decide (c.toNat = 12)

/-- ASCII lowercasing, modelling `String.prototype.toLowerCase` on the
ASCII range that the resolver's type tags live in. -/
def jsToLower (c : Char) : Char :=
  match c with
  | 'A' => 'a' | 'B' => 'b' | 'C' => 'c' | 'D' => 'd' | 'E' => 'e'
  | 'F' => 'f' | 'G' => 'g' | 'H' => 'h' | 'I' => 'i' | 'J' => 'j'
  | 'K' => 'k' | 'L' => 'l' | 'M' => 'm' | 'N' => 'n' | 'O' => 'o'
  | 'P' => 'p' | 'Q' => 'q' | 'R' => 'r' | 'S' => 's' | 'T' => 't'
  | 'U' => 'u' | 'V' => 'v' | 'W' => 'w' | 'X' => 'x' | 'Y' => 'y'
  | 'Z' => 'z'
  | other => other

/-! ## Decimal digit strings and JavaScript number/string conversions -/

/-- Value of one decimal digit character. -/
def digitVal (c : Char) : Nat := c.toNat - 48

/-- Numeric value of a most-significant-first decimal digit string, the
effect of `Number(...)` on the digit part of a matched `-?\d+` literal. -/
def digitsToNat (l : List Char) : Nat :=
  l.foldl (fun a c => a * 10 + digitVal c) 0

/-- `Number(resource)` as applied by the resolver: the argument is always a
string that matched `-?\d+` (full-string for `numberRe`, capture groups
`-?\d+` / `\d+` for the owner grammars). -/
def strToInt (l : List Char) : Int :=
  match l with
  | '-' :: t => -(digitsToNat t : Int)
  | _ => (digitsToNat l : Int)

/-- Decimal digit character for a value below ten. -/
def digitChar (d : Nat) : Char :=
  match d with
  | 0 => '0' | 1 => '1' | 2 => '2' | 3 => '3' | 4 => '4'
  | 5 => '5' | 6 => '6' | 7 => '7' | 8 => '8' | 9 => '9'
  | _ => 'X'

/-- Least-significant-first decimal digits of `n`, with explicit fuel so
that the definition is structurally recursive and computes by `rfl`. -/
def natToDecAux (fuel n : Nat) : List Char :=
  match fuel with
  | 0 => []
  | f + 1 => if n = 0 then [] else digitChar (n % 10) :: natToDecAux f (n / 10)

/-- Least-significant-first decimal digits of `n` (empty for `0`). -/
def natToDecRev (n : Nat) : List Char := natToDecAux n n

/-- Decimal rendering of a natural number, modelling `String(n)`. -/
def natToDec (n : Nat) : List Char :=
  if n = 0 then ['0'] else (natToDecRev n).reverse

/-- Modelled from ECMAScript `String(...)` applied to an integral number:
decimal digits with a leading minus sign for negative values. -/
def jsIntChars (n : Int) : List Char :=
  if n < 0 then '-' :: natToDec (-n).toNat else natToDec n.toNat

/-- `String.prototype.trim`: strip leading and trailing white space. -/
def jsTrim (l : List Char) : List Char :=
  ((l.dropWhile isWsCh).reverse.dropWhile isWsCh).reverse

/-- Substring containment (unanchored regex `test` for a literal pattern). -/
def containsSub (needle : List Char) : List Char → Bool
  | [] => needle.isEmpty
  | c :: rest => needle.isPrefixOf (c :: rest) || containsSub needle rest

/-! ## Regexes declared in `resource-resolver.ts` -/

/-- `numberRe = /^-?\d+$/` — full-string signed decimal literal. -/
def numberReTest (l : List Char) : Bool :=
  let t := match l with
    | '-' :: t => t
    | _ => l
  !t.isEmpty && t.all isDigitCh

/-- `hasProtocolRe = /https?:\/\//i` — unanchored, case-insensitive. -/
def hasProtocolTest (l : List Char) : Bool :=
  let m := l.map jsToLower
  containsSub ("http://".data) m || containsSub ("https://".data) m

/-- `isVKUrl = /^(?:https?:\/\/)?(?:m\.)?vk\.com/i` — anchored at the start,
case-insensitive: optional scheme, optional `m.` subdomain, then `vk.com`. -/
def isVKUrlTest (l : List Char) : Bool :=
  let m := l.map jsToLower
  let m1 := if ("https://".data).isPrefixOf m then m.drop 8
            else if ("http://".data).isPrefixOf m then m.drop 7
            else m
  let m2 := if ['m', '.'].isPrefixOf m1 then m1.drop 2 else m1
  ("vk.com".data).isPrefixOf m2

/-- `isUserMentionRe = /\*|@/` — unanchored: the string merely has to
contain a `*` or `@` somewhere. -/
def isUserMentionTest (l : List Char) : Bool :=
  l.any (fun c => c == '*' || c == '@')

/-- First alternative of `systemMentionRe = /\[([^|]+)|([^|\]]+)\]/` tried
at the current position: `\[([^|]+)` — a literal `[` followed by the greedy
run of non-`|` characters, which must be non-empty.  Returns capture
group 1. -/
def sysAlt1At (l : List Char) : Option (List Char) :=
  match l with
  | '[' :: rest =>
    let run := rest.takeWhile (fun c => !(c == '|'))
    if run.isEmpty then none else some run
  | _ => none

/-- Second alternative of `systemMentionRe` tried at the current position:
`([^|\]]+)\]` — a non-empty greedy run of characters that are neither `|`
nor `]`, followed by a literal `]` (the greedy run cannot backtrack into a
successful match, so only the maximal run is relevant). -/
def sysAlt2At (l : List Char) : Bool :=
  let run := l.takeWhile (fun c => !(c == '|') && !(c == ']'))
  if run.isEmpty then false
  else
    match l.drop run.length with
    | ']' :: _ => true
    | _ => false

/-- Result of a `systemMentionRe` search: either the first alternative
matched (capture group 1 is defined) or only the second did (group 1 is
`undefined`). -/
inductive SysMatch where
  | group1 (g : List Char)
  | noGroup
deriving DecidableEq, Repr

/-- Leftmost `systemMentionRe` match: positions are scanned left to right
and at each position the first alternative is preferred. -/
def sysScan : List Char → Option SysMatch
  | [] => none
  | c :: rest =>
    match sysAlt1At (c :: rest) with
    | some run => some (SysMatch.group1 run)
    | none =>
      if sysAlt2At (c :: rest) then some SysMatch.noGroup
      else sysScan rest

/-- `systemMentionRe.test(resource)`. -/
def systemMentionTest (l : List Char) : Bool :=
  (sysScan l).isSome

/-- Capture group 1 of `resource.match(systemMentionRe)`; `none` models the
JavaScript value `undefined` (group 1 did not participate in the match). -/
def systemMentionGroup1 (l : List Char) : Option (List Char) :=
  match sysScan l with
  | some (SysMatch.group1 g) => some g
  | _ => none

/-- A `removeSearchParam = /(\?|&)[^=]+=/` match anchored at the current
position: `?` or `&`, then a non-empty greedy run of non-`=` characters,
then `=`.  Returns the remainder after the matched text. -/
def searchParamAt (l : List Char) : Option (List Char) :=
  match l with
  | c :: rest =>
    if c == '?' || c == '&' then
      let run := rest.takeWhile (fun x => !(x == '='))
      if run.isEmpty then none
      else
        match rest.drop run.length with
        | '=' :: r => some r
        | _ => none
    else none
  | [] => none

/-- `type.replace(removeSearchParam, '')`: delete the leftmost match of
`/(\?|&)[^=]+=/`, if any. -/
def removeSearchParam : List Char → List Char
  | [] => []
  | c :: rest =>
    match searchParamAt (c :: rest) with
    | some r => r
    | none => c :: removeSearchParam rest

/-! ## Spec-modelled grammars

The three parse regexes are imported by the source file from
`../utils/helpers`, which is not part of the sources at hand, so they are
modelled from the spec. -/

/-- The `(-?\d+)_(\d+)` tail of the attachment grammar, after the optional
sign has been split off: a non-empty digit run, `_`, a non-empty digit run. -/
def attachNum (a sgn r2 : List Char) : Option (List Char × List Char × List Char) :=
  let d1 := r2.takeWhile isDigitCh
  if d1.isEmpty then none
  else
    match r2.drop d1.length with
    | '_' :: r3 =>
      let d2 := r3.takeWhile isDigitCh
      if d2.isEmpty then none else some (a, sgn ++ d1, d2)
    | _ => none

/-- The optional sign of the `(-?\d+)` owner-id group. -/
def attachTail (a : List Char) : List Char → Option (List Char × List Char × List Char)
  | '-' :: t => attachNum a ['-'] t
  | r1 => attachNum a [] r1

/-- Modelled from the spec: the attachment grammar (`parseAttachmentRe`)
"recognizes a substring of shape `<typeTag><signedOwnerId>_<id>` … where
`typeTag` is an alphabetic media tag", with capture groups
(1) `typeTag`, (2) `signedOwnerId`, (3) `id`.  This is the match attempt
anchored at the current position: `([a-zA-Z]+)(-?\d+)_(\d+)`. -/
def attachAt (l : List Char) : Option (List Char × List Char × List Char) :=
  let a := l.takeWhile isAlphaCh
  if a.isEmpty then none
  else attachTail a (l.drop a.length)

/-- Modelled from the spec: unanchored leftmost search for the attachment
grammar (`parseAttachmentRe.test` / `.match`). -/
def scanAttach : List Char → Option (List Char × List Char × List Char)
  | [] => none
  | c :: rest =>
    match attachAt (c :: rest) with
    | some m => some m
    | none => scanAttach rest

/-- Modelled from the spec: the owner-embed grammar (`parseOwnerResourceRe`)
has the "same shape as attachment but matched against a distinct pattern
used for wall/album/photo embed query parameters (e.g. `w=wall-123_456`,
`z=photo-123_456`); identical extraction and normalization":
`[wz]=([a-zA-Z]+)(-?\d+)_(\d+)` anchored at the current position. -/
def ownerAt (l : List Char) : Option (List Char × List Char × List Char) :=
  match l with
  | c :: '=' :: rest =>
    if c == 'w' || c == 'z' then attachAt rest else none
  | _ => none

/-- Modelled from the spec: unanchored leftmost search for the owner-embed
grammar. -/
def scanOwner : List Char → Option (List Char × List Char × List Char)
  | [] => none
  | c :: rest =>
    match ownerAt (c :: rest) with
    | some m => some m
    | none => scanOwner rest

/-- Modelled from the spec: the type-prefixed plain-ID grammar
(`parseResourceRe`) "recognizes `<prefix><nonNegativeId>` with no owner
component (e.g. `id123`, `club45`, `app9`)", capture groups (1) `prefix`,
(2) `id`: the whole string is an alphabetic prefix followed by digits. -/
def parseResourceMatch (l : List Char) : Option (List Char × List Char) :=
  let a := l.takeWhile isAlphaCh
  if a.isEmpty then none
  else
    let d := (l.drop a.length).takeWhile isDigitCh
    if d.isEmpty then none
    else if a.length + d.length = l.length then some (a, d) else none

/-! ## URL parsing (platform library) -/

/-- URL scheme characters: ASCII alphanumerics and `+`, `-`, `.`. -/
def isSchemeCh (c : Char) : Bool :=
  isAlphaCh c || isDigitCh c || c == '+' || c == '-' || c == '.'

/-- The WHATWG special schemes, which default an empty path to `/` (a
non-special scheme leaves it empty). -/
def specialSchemes : List (List Char) :=
  ["http".data, "https".data, "ws".data, "wss".data, "ftp".data, "file".data]

/-- Code points the model rejects inside a host: the WHATWG forbidden host
code points other than `/`, `?` and `:`, which end the host in context.
Two declared restrictions: a literal `%` is rejected instead of being
percent-decoded, and `#` is rejected instead of starting a fragment. -/
def isForbiddenHostCh (c : Char) : Bool :=
  c == '\x00' || c == '\t' || c == '\n' || c == '\r' || c == ' ' ||
  c == '#' || c == '<' || c == '>' || c == '@' || c == '[' || c == '\\' ||
  c == ']' || c == '^' || c == '|' || c == '%'

/-- Modelled from the platform URL parser (Node's WHATWG `new URL`),
restricted to the shapes the resolver can feed it: no userinfo (an `@`
would have been classified as a mention) and no IPv6 bracket hosts (a `[`
followed by a non-`|` character is classified as a mention); fragments,
percent-encoding, tab/newline stripping and host IDNA are not modelled,
and a special scheme without `//` (unreachable through the resolver, whose
special schemes always arise from an explicit or prepended `https?://`) is
treated like an opaque path.  `none` models the thrown
`TypeError: Invalid URL` — in particular a string with no valid
`scheme:` prefix, a forbidden host character, or a non-numeric port.
On success returns `(pathname, search)`, with `search` including its
leading `?`. -/
def urlParse (l : List Char) : Option (List Char × List Char) :=
  let scheme := l.takeWhile isSchemeCh
  match scheme.head? with
  | none => none
  | some c0 =>
    if !(isAlphaCh c0) then none
    else
      match l.drop scheme.length with
      | ':' :: rest =>
        let special := specialSchemes.contains (scheme.map jsToLower)
        match rest with
        | '/' :: '/' :: after =>
          let authority := after.takeWhile (fun c => !(c == '/') && !(c == '?'))
          let host := authority.takeWhile (fun c => !(c == ':'))
          let port := (authority.drop host.length).drop 1
          if host.any isForbiddenHostCh then none
          else if special && host.isEmpty then none
          else if !(port.all isDigitCh) then none
          else
            match after.drop authority.length with
            | '/' :: p =>
              some (('/' :: p).takeWhile (fun c => !(c == '?')),
                ('/' :: p).dropWhile (fun c => !(c == '?')))
            | '?' :: q => some ((if special then ['/'] else []), '?' :: q)
            | _ => some ((if special then ['/'] else []), [])
        | _ =>
          some (rest.takeWhile (fun c => !(c == '?')),
            rest.dropWhile (fun c => !(c == '?')))
      | _ => none

/-! ## Data model -/

/-- `ResourceErrorCode` from `utils/constants`: the closed error taxonomy. -/
inductive ResourceErrorCode where
  | INVALID_URL
  | INVALID_RESOURCE
  | RESOURCE_NOT_FOUND
deriving DecidableEq, Repr

/-- A `ResourceError`: code plus human-readable message. -/
structure ResourceError where
  code : ResourceErrorCode
  message : String
deriving DecidableEq, Repr

/-- The JavaScript value that can end up in the `type` field.  TypeScript
declares it a string, but the alias-table lookup `enumResourceTypes[type]`
consults the prototype chain, so for the prefix `constructor` the runtime
value is the inherited `Object.prototype.constructor` — a function, not a
string; `protoMember` models such an inherited non-string member by its
property name. -/
inductive TypeValue where
  | str (s : String)
  | protoMember (name : String)
deriving DecidableEq, Repr

/-- `IResolvedResource`: the normalized descriptor `{id, ownerId?, type}`. -/
structure IResolvedResource where
  id : Int
  ownerId : Option Int
  type : TypeValue
deriving DecidableEq, Repr

/-- Outcome of a resolver call: fulfilled value, thrown `ResourceError`,
or the uncaught `TypeError` that `new URL` throws on an unparsable URL
(the only non-`ResourceError` the resolver itself can raise). -/
inductive ResolveResult where
  | ok (resource : IResolvedResource)
  | error (e : ResourceError)
  | typeError
deriving DecidableEq, Repr

/-- Response of the external screen-name lookup collaborator: a list (the
ambiguous/empty sentinel) or a record `{type, object_id}`. -/
inductive LookupResponse where
  | list
  | record (type : String) (object_id : Int)

/-- The untrusted input to `resolve`: `string | number`, with the number
restricted to the integral values the resolver deals in. -/
inductive RawResource where
  | int (n : Int)
  | str (s : String)
deriving DecidableEq, Repr

/-- JavaScript truthiness test `!rawResource` on `string | number`:
the number `0` and the empty string are falsy. -/
def isFalsy : RawResource → Bool
  | RawResource.int n => n == 0
  | RawResource.str s => s.data.isEmpty

/-- `String(rawResource)`. -/
def jsStringOfRaw : RawResource → List Char
  | RawResource.int n => jsIntChars n
  | RawResource.str s => s.data

/-! ## The resolver -/

/-- The JavaScript property access `enumResourceTypes[type]` with its
`!== undefined` guard: the alias table `id → user`, `club → group`,
`public → group`, `app → application` (the right-hand sides are the
`ResourceType` constants `USER`, `GROUP`, `APPLICATION`) — but the lookup
is a plain object property access, so it also finds members inherited
from `Object.prototype`.  The keys reaching it are lowercased alphabetic
prefixes, and among `Object.prototype`'s members exactly one name is
all-lowercase alphabetic: `constructor`, whose inherited value (the
`Object` constructor function) is then substituted as `type`. -/
def enumResourceTypes (t : List Char) : Option TypeValue :=
  if t = "id".data then some (TypeValue.str "user")
  else if t = "club".data then some (TypeValue.str "group")
  else if t = "public".data then some (TypeValue.str "group")
  else if t = "app".data then some (TypeValue.str "application")
  else if t = "constructor".data then some (TypeValue.protoMember "constructor")
  else none

/-- `resolveOwnerResource(resource, pattern)` applied to the captured
groups `(type, ownerId, id)`: numeric conversion of the two ids and
normalization of the type tag (lowercase, then strip a leaked
`?key=`/`&key=` query fragment). -/
def resolveOwnerResource (m : List Char × List Char × List Char) : IResolvedResource :=
  { id := strToInt m.2.2
  , ownerId := some (strToInt m.2.1)
  , type := TypeValue.str ⟨removeSearchParam (m.1.map jsToLower)⟩ }

/-- `ResourceResolver.resolveScreenName`: attachment grammar, then
owner-embed grammar, then type-prefixed plain-ID grammar with the alias
table, then the remote lookup fallback. -/
def resolveScreenName (lookup : String → LookupResponse) (resource : List Char) :
    ResolveResult :=
  match scanAttach resource with
  | some m => ResolveResult.ok (resolveOwnerResource m)
  | none =>
    match scanOwner resource with
    | some m => ResolveResult.ok (resolveOwnerResource m)
    | none =>
      match parseResourceMatch resource with
      | some (typeResource, id) =>
        ResolveResult.ok
          { id := strToInt id
          , ownerId := none
          , type :=
              match enumResourceTypes (typeResource.map jsToLower) with
              | some value => value
              | none => TypeValue.str ⟨typeResource.map jsToLower⟩ }
      | none =>
        match lookup ⟨resource⟩ with
        | LookupResponse.list =>
          ResolveResult.error ⟨ResourceErrorCode.RESOURCE_NOT_FOUND, "Resource not found"⟩
        | LookupResponse.record t oid =>
          if t = "page" then
            ResolveResult.ok { id := oid, ownerId := none, type := TypeValue.str "group" }
          else
            ResolveResult.ok { id := oid, ownerId := none, type := TypeValue.str t }

/-- `ResourceResolver.resolveMention`.  When the string contains a `*`/`@`
sigil the first character is stripped; otherwise capture group 1 of the
system-mention match is delegated.  A group-1-less match leaves the
JavaScript value `undefined`, which the API layer serializes as the string
`"undefined"` — the `none` branch models that coercion. -/
def resolveMention (lookup : String → LookupResponse) (resource : List Char) :
    ResolveResult :=
  if isUserMentionTest resource then
    resolveScreenName lookup (resource.drop 1)
  else
    match systemMentionGroup1 resource with
    | some m => resolveScreenName lookup m
    | none => resolveScreenName lookup ("undefined".data)

/-- The parsing stage of `ResourceResolver.resolveUrl`: `new URL` throws
an uncaught `TypeError` when the string is unparsable; otherwise reject an
empty path with `INVALID_URL`, try the attachment and owner-embed grammars
against the query string, else delegate the path (without its leading `/`)
as a screen name. -/
def resolveUrlParsed (lookup : String → LookupResponse) (resourceUrl : List Char) :
    ResolveResult :=
  match urlParse resourceUrl with
  | none => ResolveResult.typeError
  | some ps =>
    if ps.1 = ['/'] then
      ResolveResult.error ⟨ResourceErrorCode.INVALID_URL, "URL should contain path"⟩
    else
      match scanAttach ps.2 with
      | some m => ResolveResult.ok (resolveOwnerResource m)
      | none =>
        match scanOwner ps.2 with
        | some m => ResolveResult.ok (resolveOwnerResource m)
        | none => resolveScreenName lookup (ps.1.drop 1)

/-- The scheme-defaulting stage of `ResourceResolver.resolveUrl`. -/
def resolveUrl (lookup : String → LookupResponse) (rawResourceUrl : List Char) :
    ResolveResult :=
  resolveUrlParsed lookup
    (if hasProtocolTest rawResourceUrl then rawResourceUrl
     else "https://".data ++ rawResourceUrl)

/-- `ResourceResolver.resolveNumber`: negative numbers re-dispatch the
absolute value with prefix `club`, non-negative ones with prefix `id`. -/
def resolveNumber (lookup : String → LookupResponse) (resource : Int) : ResolveResult :=
  let isGroup := resource < 0
  let t := if isGroup then "club".data else "id".data
  resolveScreenName lookup (t ++ jsIntChars (if isGroup then -resource else resource))

/-- `ResourceResolver.resolve`: falsy check, trim, then the four-way
classification (number, mention, URL, screen name). -/
def resolve (lookup : String → LookupResponse) (rawResource : RawResource) :
    ResolveResult :=
  if isFalsy rawResource then
    ResolveResult.error ⟨ResourceErrorCode.INVALID_RESOURCE, "Resource is required"⟩
  else
    let resource := jsTrim (jsStringOfRaw rawResource)
    if numberReTest resource then resolveNumber lookup (strToInt resource)
    else if isUserMentionTest resource || systemMentionTest resource then
      resolveMention lookup resource
    else if isVKUrlTest resource then resolveUrl lookup resource
    else resolveScreenName lookup resource

/-- The four branches of the input classifier. -/
inductive Classification where
  | number
  | mention
  | url
  | screenName
deriving DecidableEq, Repr

/-- The classifier stage of `resolve`, on the trimmed string. -/
def classify (resource : List Char) : Classification :=
  if numberReTest resource then Classification.number
  else if isUserMentionTest resource || systemMentionTest resource then
    Classification.mention
  else if isVKUrlTest resource then Classification.url
  else Classification.screenName

/-- Following the spec's words, for comparison with the code's classifier:
a bracketed system mention "of shape `[A|B]` or `[A]`" — an opening
bracket, some content, and a closing bracket at the end. -/
def specSystemMention (l : List Char) : Bool :=
  match l with
  | '[' :: rest => !rest.isEmpty && rest.getLast? == some ']'
  | _ => false

/-- Following the spec's words: the claimed mention-routing condition,
"begins with a user-mention sigil (`*` or `@`) or matches a bracketed
system-mention shape". -/
def specMentionRoute (l : List Char) : Bool :=
  l.head? == some '*' || l.head? == some '@' || specSystemMention l

/-! ## Character-class lemmas -/

/-- Letters and digits are distinct from any character outside those
classes (used with concrete punctuation characters). -/
theorem alnum_ne (c x : Char) (h : (isAlphaCh c || isDigitCh c) = true)
    (hx : (isAlphaCh x || isDigitCh x) = false) : c ≠ x := by
  intro e
  rw [e, hx] at h
  cases h

/-- Letters and digits are not trimmed white space. -/
theorem alnum_not_ws (c : Char) (h : (isAlphaCh c || isDigitCh c) = true) :
    isWsCh c = false := by
  simp only [isAlphaCh, isDigitCh, Bool.or_eq_true, decide_eq_true_eq] at h
  simp only [isWsCh, Bool.or_eq_false_iff, decide_eq_false_iff_not]
  omega

/-- `jsToLower` maps letters and digits to letters and digits. -/
theorem jsToLower_alnum (c : Char) (h : (isAlphaCh c || isDigitCh c) = true) :
    (isAlphaCh (jsToLower c) || isDigitCh (jsToLower c)) = true := by
  unfold jsToLower
  split
  all_goals first
    | decide
    | exact h

/-! ## Decimal rendering lemmas -/

/-- Every digit value below ten renders as a decimal digit character. -/
theorem digitChar_digit : ∀ d : Nat, d < 10 → isDigitCh (digitChar d) = true := by decide

/-- Rendering then reading a digit value below ten is the identity. -/
theorem digitChar_val : ∀ d : Nat, d < 10 → digitVal (digitChar d) = d := by decide

/-- All characters produced by `natToDecAux` are decimal digits. -/
theorem natToDecAux_all_digit : ∀ f n : Nat, (natToDecAux f n).all isDigitCh = true := by
  intro f
  induction f with
  | zero => intro n; rfl
  | succ f ih =>
    intro n
    unfold natToDecAux
    by_cases h : n = 0
    · simp [h]
    · simp only [h, if_false, List.all_cons, Bool.and_eq_true]
      exact ⟨digitChar_digit _ (Nat.mod_lt _ (by omega)), ih _⟩

/-- All characters produced by `natToDec` are decimal digits. -/
theorem natToDec_all_digit (n : Nat) : (natToDec n).all isDigitCh = true := by
  unfold natToDec
  by_cases h : n = 0
  · simp only [h, if_true]
    decide
  · simp only [h, if_false, List.all_eq_true]
    intro x hx
    exact List.all_eq_true.mp (natToDecAux_all_digit n n) x (List.mem_reverse.mp hx)

/-- `natToDec` never returns the empty list. -/
theorem natToDec_ne_nil (n : Nat) : natToDec n ≠ [] := by
  unfold natToDec natToDecRev
  by_cases h : n = 0
  · simp [h]
  · simp only [h, if_false]
    intro he
    rw [List.reverse_eq_nil_iff] at he
    cases n with
    | zero => exact h rfl
    | succ m =>
      unfold natToDecAux at he
      simp at he

/-- Folding the rendered digits (most significant first) recovers the
value, with an arbitrary accumulator. -/
theorem foldl_natToDecAux : ∀ f n a : Nat, n ≤ f →
    List.foldl (fun a c => a * 10 + digitVal c) a ((natToDecAux f n).reverse) =
      a * 10 ^ (natToDecAux f n).length + n := by
  intro f
  induction f with
  | zero =>
    intro n a h
    interval_cases n
    simp [natToDecAux]
  | succ f ih =>
    intro n a h
    by_cases h0 : n = 0
    · simp [natToDecAux, h0]
    · have hrec : n / 10 ≤ f := by
        have : n / 10 < n := Nat.div_lt_self (by omega) (by omega)
        omega
      have hmod : n % 10 < 10 := Nat.mod_lt _ (by omega)
      unfold natToDecAux
      simp only [h0, if_false, List.reverse_cons, List.foldl_append, List.foldl_cons,
        List.foldl_nil, List.length_cons]
      rw [ih _ a hrec, digitChar_val _ hmod]
      have : 10 ^ (natToDecAux f (n / 10)).length * 10 =
          10 ^ ((natToDecAux f (n / 10)).length + 1) := by
        rw [pow_succ]
      calc (a * 10 ^ (natToDecAux f (n / 10)).length + n / 10) * 10 + n % 10
          = a * (10 ^ (natToDecAux f (n / 10)).length * 10) + (n / 10 * 10 + n % 10) := by ring
        _ = a * 10 ^ ((natToDecAux f (n / 10)).length + 1) + n := by
            rw [this]
            omega

/-- Reading back the decimal rendering of `n` gives `n`. -/
theorem digitsToNat_natToDec (n : Nat) : digitsToNat (natToDec n) = n := by
  unfold natToDec
  by_cases h : n = 0
  · simp [h, digitsToNat, digitVal]
  · simp only [h, if_false]
    unfold natToDecRev digitsToNat
    rw [foldl_natToDecAux n n 0 (Nat.le_refl n)]
    omega

/-! ## Trimming and conversion lemmas -/

/-- `dropWhile` is the identity on lists whose members all fail `p`. -/
theorem dropWhile_id_of (p : Char → Bool) (l : List Char)
    (h : ∀ c ∈ l, p c = false) : l.dropWhile p = l := by
  cases l with
  | nil => rfl
  | cons c rest =>
    rw [List.dropWhile_cons, h c (List.mem_cons_self c rest)]
    simp

/-- Trimming does nothing to a string with no white space. -/
theorem jsTrim_id_of (l : List Char) (h : ∀ c ∈ l, isWsCh c = false) :
    jsTrim l = l := by
  unfold jsTrim
  rw [dropWhile_id_of _ _ h]
  rw [dropWhile_id_of _ _ (fun c hc => h c (List.mem_reverse.mp hc))]
  exact List.reverse_reverse l

/-- A digit string does not start with the sign character. -/
theorem strToInt_of_digits (l : List Char) (h : l.all isDigitCh = true) :
    strToInt l = (digitsToNat l : Int) := by
  unfold strToInt
  split
  · rename_i t
    rw [List.all_cons] at h
    have hm : isDigitCh '-' = false := by decide
    rw [hm] at h
    simp at h
  · rfl

/-- `Number(...)` applied to a rendered digit string is non-negative. -/
theorem strToInt_nonneg_of_digits (l : List Char) (h : l.all isDigitCh = true) :
    0 ≤ strToInt l := by
  rw [strToInt_of_digits l h]
  exact Int.ofNat_nonneg _

/-- Round trip: `Number(String(n)) = n` for every integer. -/
theorem strToInt_jsIntChars (n : Int) : strToInt (jsIntChars n) = n := by
  unfold jsIntChars
  by_cases h : n < 0
  · simp only [h, if_true]
    show -(digitsToNat (natToDec (-n).toNat) : Int) = n
    rw [digitsToNat_natToDec]
    omega
  · simp only [h, if_false]
    rw [strToInt_of_digits _ (natToDec_all_digit _), digitsToNat_natToDec]
    omega

/-- `String(n)` passes the `numberRe` full-string test. -/
theorem numberReTest_jsIntChars (n : Int) : numberReTest (jsIntChars n) = true := by
  have key : ∀ m : Nat, numberReTest ('-' :: natToDec m) = true ∧
      numberReTest (natToDec m) = true := by
    intro m
    have hd := natToDec_all_digit m
    have hne := natToDec_ne_nil m
    constructor
    · show (!(natToDec m).isEmpty && (natToDec m).all isDigitCh) = true
      simp [List.isEmpty_iff, hne, hd]
    · unfold numberReTest
      match hm : natToDec m with
      | [] => exact absurd hm hne
      | c :: t =>
        have hc : isDigitCh c = true := by
          rw [hm] at hd
          exact List.all_eq_true.mp hd c (List.mem_cons_self c t)
        have hcm : c ≠ '-' := by
          intro e
          rw [e] at hc
          cases hc
        rw [hm] at hd
        match c, hcm with
        | '-', hcm => exact absurd rfl hcm
        | c, _ => simp_all
  unfold jsIntChars
  by_cases h : n < 0
  · simp only [h, if_true]
    exact (key _).1
  · simp only [h, if_false]
    exact (key _).2

/-- The characters of `String(n)` are digits and the sign: never white
space, so the trim stage leaves numeric input unchanged. -/
theorem jsTrim_jsIntChars (n : Int) : jsTrim (jsIntChars n) = jsIntChars n := by
  apply jsTrim_id_of
  intro c hc
  unfold jsIntChars at hc
  have hdig : ∀ m : Nat, c ∈ natToDec m → isWsCh c = false := by
    intro m hm
    exact alnum_not_ws c (by
      rw [List.all_eq_true.mp (natToDec_all_digit m) c hm, Bool.or_true])
  by_cases h : n < 0
  · simp only [h, if_true] at hc
    rcases List.mem_cons.mp hc with h1 | h1
    · rw [h1]; rfl
    · exact hdig _ h1
  · simp only [h, if_false] at hc
    exact hdig _ hc
/-! ## Membership helpers and classifier refutations on restricted alphabets -/

/-- Members of a boolean prefix are members of the whole list. -/
theorem isPrefixOf_mem {l₁ l₂ : List Char} (h : l₁.isPrefixOf l₂ = true)
    {a : Char} (ha : a ∈ l₁) : a ∈ l₂ :=
  ((List.isPrefixOf_iff_prefix.mp h).subset) ha

/-- A string of letters and digits contains no mention sigil. -/
theorem isUserMentionTest_false_of_alnum (l : List Char)
    (h : ∀ c ∈ l, (isAlphaCh c || isDigitCh c) = true) :
    isUserMentionTest l = false := by
  unfold isUserMentionTest
  rw [List.any_eq_false]
  intro c hc
  have := h c hc
  intro hcontra
  rcases Bool.or_eq_true_iff.mp hcontra with h1 | h1
  · exact alnum_ne c '*' this (by decide) (by simpa using h1)
  · exact alnum_ne c '@' this (by decide) (by simpa using h1)

/-- The first `systemMentionRe` alternative needs an opening bracket. -/
theorem sysAlt1At_mem (l run : List Char) (h : sysAlt1At l = some run) :
    '[' ∈ l := by
  unfold sysAlt1At at h
  split at h
  · exact List.mem_cons_self _ _
  · cases h

/-- The second `systemMentionRe` alternative needs a closing bracket. -/
theorem sysAlt2At_mem (l : List Char) (h : sysAlt2At l = true) : ']' ∈ l := by
  simp only [sysAlt2At] at h
  split at h
  · cases h
  · split at h
    · rename_i tail heq
      exact List.mem_of_mem_drop (heq ▸ List.mem_cons_self ']' tail)
    · cases h

/-- A successful `systemMentionRe` search needs a bracket character. -/
theorem sysScan_mem : ∀ l : List Char, (sysScan l).isSome = true →
    '[' ∈ l ∨ ']' ∈ l := by
  intro l
  induction l with
  | nil => intro h; cases h
  | cons c rest ih =>
    intro h
    unfold sysScan at h
    revert h
    split
    · rename_i run h1
      intro _
      exact Or.inl (sysAlt1At_mem _ _ h1)
    · split
      · rename_i h2
        intro _
        exact Or.inr (sysAlt2At_mem _ h2)
      · intro h
        rcases ih h with h1 | h1
        · exact Or.inl (List.mem_cons_of_mem c h1)
        · exact Or.inr (List.mem_cons_of_mem c h1)

/-- A string of letters and digits never matches `systemMentionRe`. -/
theorem systemMentionTest_false_of_alnum (l : List Char)
    (h : ∀ c ∈ l, (isAlphaCh c || isDigitCh c) = true) :
    systemMentionTest l = false := by
  unfold systemMentionTest
  by_cases hs : (sysScan l).isSome = true
  · exfalso
    rcases sysScan_mem l hs with h1 | h1
    · exact alnum_ne '[' '[' (h '[' h1) (by decide) rfl
    · exact alnum_ne ']' ']' (h ']' h1) (by decide) rfl
  · simpa using hs

/-- A positive `isVKUrl` test forces a dot into the lowercased string. -/
theorem isVKUrlTest_dot (l : List Char) (h : isVKUrlTest l = true) :
    '.' ∈ l.map jsToLower := by
  have hdot : ∀ m2 : List Char, ("vk.com".data).isPrefixOf m2 = true → '.' ∈ m2 :=
    fun m2 hp => isPrefixOf_mem hp (by decide)
  simp only [isVKUrlTest] at h
  repeat' split at h
  all_goals
    first
      | exact List.mem_of_mem_drop (List.mem_of_mem_drop (hdot _ h))
      | exact List.mem_of_mem_drop (hdot _ h)
      | exact hdot _ h

/-- A string of letters and digits is never taken for a platform URL. -/
theorem isVKUrlTest_false_of_alnum (l : List Char)
    (h : ∀ c ∈ l, (isAlphaCh c || isDigitCh c) = true) :
    isVKUrlTest l = false := by
  by_cases hv : isVKUrlTest l = true
  · exfalso
    rcases List.mem_map.mp (isVKUrlTest_dot l hv) with ⟨c, hc, he⟩
    have halnum := jsToLower_alnum c (h c hc)
    rw [he] at halnum
    exact alnum_ne '.' '.' halnum (by decide) rfl
  · simpa using hv

/-- A string starting with a letter fails the `numberRe` test. -/
theorem numberReTest_false_of_head_alpha (c : Char) (cs : List Char)
    (h : isAlphaCh c = true) : numberReTest (c :: cs) = false := by
  have hne : c ≠ '-' := alnum_ne c '-' (by rw [h]; rfl) (by decide)
  have hnd : isDigitCh c = false := by
    by_cases hd : isDigitCh c = true
    · exfalso
      simp only [isAlphaCh, isDigitCh, Bool.or_eq_true, decide_eq_true_eq] at h hd
      omega
    · simpa using hd
  simp only [numberReTest]
  split
  · rename_i t heq
    exact absurd (show c = '-' by injection heq) hne
  · simp [List.all_cons, hnd]

/-! ## Grammar-matcher structure lemmas -/

/-- Everything `takeWhile` keeps satisfies the predicate. -/
theorem all_takeWhile (p : Char → Bool) (l : List Char) :
    (l.takeWhile p).all p = true :=
  List.all_eq_true.mpr (fun _ hx => List.mem_takeWhile_imp hx)

/-- `takeWhile` over an append whose left part satisfies `p` and whose
right part starts with a failing character keeps exactly the left part. -/
theorem takeWhile_append_eq (p : Char → Bool) : ∀ (xs ys : List Char),
    xs.all p = true → (∀ c, ys.head? = some c → p c = false) →
    (xs ++ ys).takeWhile p = xs := by
  intro xs
  induction xs with
  | nil =>
    intro ys _ hy
    cases ys with
    | nil => rfl
    | cons c t =>
      rw [List.nil_append, List.takeWhile_cons, hy c rfl]
      simp
  | cons x xt ih =>
    intro ys hx hy
    rw [List.all_cons, Bool.and_eq_true] at hx
    rw [List.cons_append, List.takeWhile_cons, if_pos hx.1]
    rw [ih ys hx.2 hy]

/-- The digit tail of the attachment grammar requires an underscore and
captures an all-digit id group. -/
theorem attachNum_some (a sgn r2 : List Char) (m : List Char × List Char × List Char)
    (h : attachNum a sgn r2 = some m) :
    '_' ∈ r2 ∧ m.2.2.all isDigitCh = true := by
  simp only [attachNum] at h
  split at h
  · cases h
  · split at h
    · rename_i r3 heq
      split at h
      · cases h
      · rename_i hne
        have hmem : '_' ∈ r2.drop (r2.takeWhile isDigitCh).length := by
          rw [heq]
          exact List.mem_cons_self _ _
        refine ⟨List.mem_of_mem_drop hmem, ?_⟩
        have := congrArg (fun x => x.2.2) (Option.some.inj h)
        simp only at this
        rw [← this]
        exact all_takeWhile isDigitCh r3
    · cases h

/-- The sign stage preserves the underscore requirement and the digit
shape of the id group. -/
theorem attachTail_some (a r1 : List Char) (m : List Char × List Char × List Char)
    (h : attachTail a r1 = some m) :
    '_' ∈ r1 ∧ m.2.2.all isDigitCh = true := by
  unfold attachTail at h
  split at h
  · rename_i t
    rcases attachNum_some _ _ _ _ h with ⟨h1, h2⟩
    exact ⟨List.mem_cons_of_mem _ h1, h2⟩
  · exact attachNum_some _ _ _ _ h

/-- An anchored attachment match requires an underscore and captures an
all-digit id group. -/
theorem attachAt_some (l : List Char) (m : List Char × List Char × List Char)
    (h : attachAt l = some m) :
    '_' ∈ l ∧ m.2.2.all isDigitCh = true := by
  simp only [attachAt] at h
  split at h
  · cases h
  · rcases attachTail_some _ _ _ h with ⟨h1, h2⟩
    exact ⟨List.mem_of_mem_drop h1, h2⟩

/-- An attachment search requires an underscore and captures an all-digit
id group. -/
theorem scanAttach_some : ∀ (l : List Char) (m : List Char × List Char × List Char),
    scanAttach l = some m → '_' ∈ l ∧ m.2.2.all isDigitCh = true := by
  intro l
  induction l with
  | nil => intro m h; cases h
  | cons c rest ih =>
    intro m h
    unfold scanAttach at h
    revert h
    split
    · rename_i m1 h1
      intro h
      rcases attachAt_some _ _ h1 with ⟨ha, hb⟩
      cases h
      exact ⟨ha, hb⟩
    · intro h
      rcases ih m h with ⟨ha, hb⟩
      exact ⟨List.mem_cons_of_mem c ha, hb⟩

/-- An owner-embed match at a position requires an equals sign and
captures an all-digit id group. -/
theorem ownerAt_some (l : List Char) (m : List Char × List Char × List Char)
    (h : ownerAt l = some m) :
    '=' ∈ l ∧ m.2.2.all isDigitCh = true := by
  unfold ownerAt at h
  split at h
  · rename_i c rest
    split at h
    · rcases attachAt_some _ _ h with ⟨_, hb⟩
      exact ⟨List.mem_cons_of_mem _ (List.mem_cons_self _ _), hb⟩
    · cases h
  · cases h

/-- An owner-embed search requires an equals sign and captures an
all-digit id group. -/
theorem scanOwner_some : ∀ (l : List Char) (m : List Char × List Char × List Char),
    scanOwner l = some m → '=' ∈ l ∧ m.2.2.all isDigitCh = true := by
  intro l
  induction l with
  | nil => intro m h; cases h
  | cons c rest ih =>
    intro m h
    unfold scanOwner at h
    revert h
    split
    · rename_i m1 h1
      intro h
      rcases ownerAt_some _ _ h1 with ⟨ha, hb⟩
      cases h
      exact ⟨ha, hb⟩
    · intro h
      rcases ih m h with ⟨ha, hb⟩
      exact ⟨List.mem_cons_of_mem c ha, hb⟩

/-- Strings with no underscore never match the attachment grammar. -/
theorem scanAttach_none (l : List Char) (h : '_' ∉ l) : scanAttach l = none := by
  cases hs : scanAttach l with
  | none => rfl
  | some m => exact absurd (scanAttach_some l m hs).1 h

/-- Strings with no equals sign never match the owner-embed grammar. -/
theorem scanOwner_none (l : List Char) (h : '=' ∉ l) : scanOwner l = none := by
  cases hs : scanOwner l with
  | none => rfl
  | some m => exact absurd (scanOwner_some l m hs).1 h

/-- A decimal digit is not a letter. -/
theorem digit_not_alpha (c : Char) (h : isDigitCh c = true) : isAlphaCh c = false := by
  simp only [isDigitCh, decide_eq_true_eq] at h
  simp only [isAlphaCh, Bool.or_eq_false_iff, decide_eq_false_iff_not]
  omega

/-- `takeWhile` keeps a list all of whose members satisfy the predicate. -/
theorem takeWhile_all (p : Char → Bool) (l : List Char) (h : l.all p = true) :
    l.takeWhile p = l := by
  have := takeWhile_append_eq p l [] h (fun c hc => by cases hc)
  simpa using this

/-- Dropping the matched run is dropping while the predicate holds. -/
theorem drop_takeWhile_length (p : Char → Bool) : ∀ l : List Char,
    l.drop (l.takeWhile p).length = l.dropWhile p := by
  intro l
  induction l with
  | nil => rfl
  | cons c t ih =>
    rw [List.takeWhile_cons, List.dropWhile_cons]
    by_cases h : p c = true
    · rw [if_pos h, if_pos h]
      simpa using ih
    · rw [if_neg h, if_neg h]
      rfl

/-- Structure of a successful plain-ID grammar match: the string splits
into a non-empty alphabetic prefix and a non-empty digit suffix. -/
theorem parseResourceMatch_some (l p d : List Char)
    (h : parseResourceMatch l = some (p, d)) :
    l = p ++ d ∧ p.all isAlphaCh = true ∧ d.all isDigitCh = true ∧ p ≠ [] ∧ d ≠ [] := by
  simp only [parseResourceMatch] at h
  split at h
  · cases h
  · rename_i hpne
    split at h
    · cases h
    · rename_i hdne
      split at h
      · rename_i hlen
        have hinj := Option.some.inj h
        have hp : l.takeWhile isAlphaCh = p := congrArg Prod.fst hinj
        have hd0 : (l.drop (l.takeWhile isAlphaCh).length).takeWhile isDigitCh = d :=
          congrArg Prod.snd hinj
        rcases List.takeWhile_prefix (p := isAlphaCh) (l := l) with ⟨t, ht⟩
        have htr : l.drop (l.takeWhile isAlphaCh).length = t := by
          have hdl := List.drop_left (l.takeWhile isAlphaCh) t
          rw [ht] at hdl
          exact hdl
        rw [htr] at hd0 hlen hdne
        rcases List.takeWhile_prefix (p := isDigitCh) (l := t) with ⟨t2, ht2⟩
        have hlength : l.length = p.length + (d.length + t2.length) := by
          rw [← ht, ← hp, List.length_append]
          congr 1
          rw [← ht2, ← hd0, List.length_append]
        rw [hp, hd0] at hlen
        have ht2nil : t2 = [] := by
          have : t2.length = 0 := by omega
          exact List.length_eq_zero.mp this
        have htd : t = d := by
          rw [← ht2, hd0, ht2nil, List.append_nil]
        refine ⟨?_, ?_, ?_, ?_, ?_⟩
        · rw [← ht, hp, htd]
        · rw [← hp]; exact all_takeWhile _ _
        · rw [← hd0]; exact all_takeWhile _ _
        · intro he
          rw [← hp, ← List.isEmpty_iff] at he
          exact hpne he
        · intro he
          rw [← hd0, ← List.isEmpty_iff] at he
          exact hdne he
      · cases h

/-- A non-empty alphabetic prefix followed by a non-empty digit suffix
matches the plain-ID grammar with exactly those capture groups. -/
theorem parseResourceMatch_append (p d : List Char)
    (hp : p.all isAlphaCh = true) (hpne : p ≠ [])
    (hd : d.all isDigitCh = true) (hdne : d ≠ []) :
    parseResourceMatch (p ++ d) = some (p, d) := by
  have hdhead : ∀ c, d.head? = some c → isAlphaCh c = false := by
    intro c hc
    cases d with
    | nil => cases hc
    | cons c0 t =>
      have hc0 : c0 = c := by injection hc
      rw [List.all_cons, Bool.and_eq_true] at hd
      rw [← hc0]
      exact digit_not_alpha c0 hd.1
  have htake : (p ++ d).takeWhile isAlphaCh = p := takeWhile_append_eq _ p d hp hdhead
  have hpe : p.isEmpty = false := by
    cases p with
    | nil => exact absurd rfl hpne
    | cons a b => rfl
  have hde : d.isEmpty = false := by
    cases d with
    | nil => exact absurd rfl hdne
    | cons a b => rfl
  simp only [parseResourceMatch, htake, List.drop_left, takeWhile_all isDigitCh d hd, hpe,
    List.length_append, hde]
  simp

/-! ## Resolver-level structure lemmas -/

/-- Every fulfilled result of the screen-name resolver carries a
non-negative id, provided the collaborator only ever reports non-negative
object ids. -/
theorem resolveScreenName_ok_id (lookup : String → LookupResponse)
    (hl : ∀ s t oid, lookup s = LookupResponse.record t oid → 0 ≤ oid)
    (l : List Char) (r : IResolvedResource)
    (h : resolveScreenName lookup l = ResolveResult.ok r) : 0 ≤ r.id := by
  unfold resolveScreenName at h
  split at h
  · rename_i m hm
    cases h
    exact strToInt_nonneg_of_digits _ (scanAttach_some _ _ hm).2
  · split at h
    · rename_i m hm
      cases h
      exact strToInt_nonneg_of_digits _ (scanOwner_some _ _ hm).2
    · split at h
      · rename_i tr id hm
        cases h
        rcases parseResourceMatch_some _ _ _ hm with ⟨_, _, hd, _, _⟩
        exact strToInt_nonneg_of_digits _ hd
      · split at h
        · cases h
        · rename_i t oid hrec
          split at h
          · cases h
            exact hl _ _ _ hrec
          · cases h
            exact hl _ _ _ hrec

/-- The only error the screen-name resolver raises is the not-found one. -/
theorem resolveScreenName_error (lookup : String → LookupResponse) (l : List Char)
    (e : ResourceError) (h : resolveScreenName lookup l = ResolveResult.error e) :
    e = ⟨ResourceErrorCode.RESOURCE_NOT_FOUND, "Resource not found"⟩ := by
  unfold resolveScreenName at h
  repeat' split at h
  all_goals (cases h <;> rfl)

/-- The mention resolver only delegates, so its fulfilled ids are
non-negative under the same collaborator assumption. -/
theorem resolveMention_ok_id (lookup : String → LookupResponse)
    (hl : ∀ s t oid, lookup s = LookupResponse.record t oid → 0 ≤ oid)
    (l : List Char) (r : IResolvedResource)
    (h : resolveMention lookup l = ResolveResult.ok r) : 0 ≤ r.id := by
  unfold resolveMention at h
  split at h
  · exact resolveScreenName_ok_id _ hl _ _ h
  · split at h
    · exact resolveScreenName_ok_id _ hl _ _ h
    · exact resolveScreenName_ok_id _ hl _ _ h

/-- The mention resolver raises only the not-found error. -/
theorem resolveMention_error (lookup : String → LookupResponse) (l : List Char)
    (e : ResourceError) (h : resolveMention lookup l = ResolveResult.error e) :
    e = ⟨ResourceErrorCode.RESOURCE_NOT_FOUND, "Resource not found"⟩ := by
  unfold resolveMention at h
  split at h
  · exact resolveScreenName_error _ _ _ h
  · split at h
    · exact resolveScreenName_error _ _ _ h
    · exact resolveScreenName_error _ _ _ h

/-- The numeric resolver only delegates. -/
theorem resolveNumber_ok_id (lookup : String → LookupResponse)
    (hl : ∀ s t oid, lookup s = LookupResponse.record t oid → 0 ≤ oid)
    (n : Int) (r : IResolvedResource)
    (h : resolveNumber lookup n = ResolveResult.ok r) : 0 ≤ r.id := by
  simp only [resolveNumber] at h
  exact resolveScreenName_ok_id _ hl _ _ h

/-- The numeric resolver raises only the not-found error. -/
theorem resolveNumber_error (lookup : String → LookupResponse) (n : Int)
    (e : ResourceError) (h : resolveNumber lookup n = ResolveResult.error e) :
    e = ⟨ResourceErrorCode.RESOURCE_NOT_FOUND, "Resource not found"⟩ := by
  simp only [resolveNumber] at h
  exact resolveScreenName_error _ _ _ h

/-- Fulfilled ids of the URL resolver are non-negative under the same
collaborator assumption. -/
theorem resolveUrl_ok_id (lookup : String → LookupResponse)
    (hl : ∀ s t oid, lookup s = LookupResponse.record t oid → 0 ≤ oid)
    (l : List Char) (r : IResolvedResource)
    (h : resolveUrl lookup l = ResolveResult.ok r) : 0 ≤ r.id := by
  have parsed : ∀ u : List Char, resolveUrlParsed lookup u = ResolveResult.ok r → 0 ≤ r.id := by
    intro u hu
    unfold resolveUrlParsed at hu
    split at hu
    · cases hu
    · split at hu
      · cases hu
      · split at hu
        · rename_i m hm
          cases hu
          exact strToInt_nonneg_of_digits _ (scanAttach_some _ _ hm).2
        · split at hu
          · rename_i m hm
            cases hu
            exact strToInt_nonneg_of_digits _ (scanOwner_some _ _ hm).2
          · exact resolveScreenName_ok_id _ hl _ _ hu
  exact parsed _ h

/-- The URL resolver raises only the invalid-URL or not-found errors. -/
theorem resolveUrl_error (lookup : String → LookupResponse) (l : List Char)
    (e : ResourceError) (h : resolveUrl lookup l = ResolveResult.error e) :
    e = ⟨ResourceErrorCode.INVALID_URL, "URL should contain path"⟩ ∨
    e = ⟨ResourceErrorCode.RESOURCE_NOT_FOUND, "Resource not found"⟩ := by
  have parsed : ∀ u : List Char, resolveUrlParsed lookup u = ResolveResult.error e →
      e = ⟨ResourceErrorCode.INVALID_URL, "URL should contain path"⟩ ∨
      e = ⟨ResourceErrorCode.RESOURCE_NOT_FOUND, "Resource not found"⟩ := by
    intro u hu
    unfold resolveUrlParsed at hu
    split at hu
    · cases hu
    · split at hu
      · left
        cases hu
        rfl
      · repeat' split at hu
        all_goals first
          | cases hu
          | exact Or.inr (resolveScreenName_error _ _ _ hu)
  exact parsed _ h

/-- A falsy input is exactly the integer zero or the empty string. -/
theorem isFalsy_iff (raw : RawResource) :
    isFalsy raw = true ↔ raw = RawResource.int 0 ∨ raw = RawResource.str "" := by
  cases raw with
  | int n =>
    simp only [isFalsy, beq_iff_eq]
    constructor
    · intro h
      exact Or.inl (by rw [h])
    · intro h
      rcases h with h | h
      · injection h
      · cases h
  | str s =>
    simp only [isFalsy, List.isEmpty_iff]
    constructor
    · intro h
      refine Or.inr ?_
      cases s with
      | mk data =>
        have hd : data = [] := h
        subst hd
        rfl
    · intro h
      rcases h with h | h
      · cases h
      · injection h with h1
        subst h1
        rfl

/-- `resolve` on a non-falsy input dispatches on the classification of the
trimmed string. -/
theorem resolve_dispatch (lookup : String → LookupResponse) (raw : RawResource)
    (h : isFalsy raw = false) :
    resolve lookup raw =
      (match classify (jsTrim (jsStringOfRaw raw)) with
        | Classification.number =>
          resolveNumber lookup (strToInt (jsTrim (jsStringOfRaw raw)))
        | Classification.mention => resolveMention lookup (jsTrim (jsStringOfRaw raw))
        | Classification.url => resolveUrl lookup (jsTrim (jsStringOfRaw raw))
        | Classification.screenName =>
          resolveScreenName lookup (jsTrim (jsStringOfRaw raw))) := by
  simp only [resolve, h, Bool.false_eq_true, if_false, classify]
  by_cases h1 : numberReTest (jsTrim (jsStringOfRaw raw)) = true
  · rw [if_pos h1, if_pos h1]
  · rw [if_neg h1, if_neg h1]
    by_cases h2 : (isUserMentionTest (jsTrim (jsStringOfRaw raw)) ||
        systemMentionTest (jsTrim (jsStringOfRaw raw))) = true
    · rw [if_pos h2, if_pos h2]
    · rw [if_neg h2, if_neg h2]
      by_cases h3 : isVKUrlTest (jsTrim (jsStringOfRaw raw)) = true
      · rw [if_pos h3, if_pos h3]
      · rw [if_neg h3, if_neg h3]

/-- Every fulfilled `resolve` carries a non-negative id, provided the
collaborator only ever reports non-negative object ids. -/
theorem resolve_ok_id (lookup : String → LookupResponse)
    (hl : ∀ s t oid, lookup s = LookupResponse.record t oid → 0 ≤ oid)
    (raw : RawResource) (r : IResolvedResource)
    (h : resolve lookup raw = ResolveResult.ok r) : 0 ≤ r.id := by
  simp only [resolve] at h
  split at h
  · cases h
  · split at h
    · exact resolveNumber_ok_id _ hl _ _ h
    · split at h
      · exact resolveMention_ok_id _ hl _ _ h
      · split at h
        · exact resolveUrl_ok_id _ hl _ _ h
        · exact resolveScreenName_ok_id _ hl _ _ h

/-- The complete error taxonomy of `resolve`, with the exact messages, and
the fact that `INVALID_RESOURCE` arises only from the falsy check. -/
theorem resolve_error_code (lookup : String → LookupResponse) (raw : RawResource)
    (e : ResourceError) (h : resolve lookup raw = ResolveResult.error e) :
    (e = ⟨ResourceErrorCode.INVALID_RESOURCE, "Resource is required"⟩ ∧ isFalsy raw = true) ∨
    e = ⟨ResourceErrorCode.INVALID_URL, "URL should contain path"⟩ ∨
    e = ⟨ResourceErrorCode.RESOURCE_NOT_FOUND, "Resource not found"⟩ := by
  simp only [resolve] at h
  split at h
  · rename_i hf
    cases h
    exact Or.inl ⟨rfl, hf⟩
  · split at h
    · exact Or.inr (Or.inr (resolveNumber_error _ _ _ h))
    · split at h
      · exact Or.inr (Or.inr (resolveMention_error _ _ _ h))
      · split at h
        · rcases resolveUrl_error _ _ _ h with h1 | h1
          · exact Or.inr (Or.inl h1)
          · exact Or.inr (Or.inr h1)
        · exact Or.inr (Or.inr (resolveScreenName_error _ _ _ h))

/-- A concatenation of letters with digits is all letters-and-digits. -/
theorem alnum_append (p d : List Char) (hp : p.all isAlphaCh = true)
    (hd : d.all isDigitCh = true) :
    ∀ c ∈ p ++ d, (isAlphaCh c || isDigitCh c) = true := by
  intro c hc
  rcases List.mem_append.mp hc with h1 | h1
  · rw [List.all_eq_true.mp hp c h1]
    rfl
  · rw [List.all_eq_true.mp hd c h1, Bool.or_true]

/-- A non-empty alphabetic prefix followed by digits is classified as a
bare screen name: it is not numeric, not a mention, and not a URL. -/
theorem resolve_str_alnum (lookup : String → LookupResponse) (p d : List Char)
    (hp : p.all isAlphaCh = true) (hpne : p ≠ []) (hd : d.all isDigitCh = true) :
    resolve lookup (RawResource.str ⟨p ++ d⟩) = resolveScreenName lookup (p ++ d) := by
  have hall : ∀ c ∈ p ++ d, (isAlphaCh c || isDigitCh c) = true := alnum_append p d hp hd
  obtain ⟨c0, t0, hct⟩ : ∃ c0 t0, p = c0 :: t0 := by
    cases p with
    | nil => exact absurd rfl hpne
    | cons a b => exact ⟨a, b, rfl⟩
  have hfalsy : isFalsy (RawResource.str ⟨p ++ d⟩) = false := by
    rw [hct]
    rfl
  have htrim : jsTrim (p ++ d) = p ++ d :=
    jsTrim_id_of _ (fun c hc => alnum_not_ws c (hall c hc))
  have hnum : numberReTest (p ++ d) = false := by
    rw [hct, List.cons_append]
    exact numberReTest_false_of_head_alpha _ _
      (List.all_eq_true.mp hp c0 (by rw [hct]; exact List.mem_cons_self _ _))
  have hmention : isUserMentionTest (p ++ d) = false :=
    isUserMentionTest_false_of_alnum _ hall
  have hsys : systemMentionTest (p ++ d) = false :=
    systemMentionTest_false_of_alnum _ hall
  have hvk : isVKUrlTest (p ++ d) = false := isVKUrlTest_false_of_alnum _ hall
  have hcls : classify (p ++ d) = Classification.screenName := by
    simp [classify, hnum, hmention, hsys, hvk]
  rw [resolve_dispatch lookup _ hfalsy]
  simp only [jsStringOfRaw]
  rw [htrim, hcls]
/-- The alias lookup only ever yields a canonical tag string or the one
inherited `Object.prototype` member, `constructor`. -/
theorem enumResourceTypes_shape (t : List Char) (v : TypeValue)
    (h : enumResourceTypes t = some v) :
    (∃ s, v = TypeValue.str s) ∨ v = TypeValue.protoMember "constructor" := by
  simp only [enumResourceTypes] at h
  repeat' split at h
  all_goals
    cases h <;> first
      | exact Or.inl ⟨_, rfl⟩
      | exact Or.inr rfl

/-- Every fulfilled `type` of the screen-name resolver is a string, except
for the prototype-colliding prefix `constructor`. -/
theorem resolveScreenName_ok_type (lookup : String → LookupResponse)
    (l : List Char) (r : IResolvedResource)
    (h : resolveScreenName lookup l = ResolveResult.ok r) :
    (∃ s, r.type = TypeValue.str s) ∨ r.type = TypeValue.protoMember "constructor" := by
  unfold resolveScreenName at h
  split at h
  · cases h
    exact Or.inl ⟨_, rfl⟩
  · split at h
    · cases h
      exact Or.inl ⟨_, rfl⟩
    · split at h
      · rename_i tr id hm
        cases h
        cases he : enumResourceTypes (tr.map jsToLower) with
        | none =>
          simp only [he]
          exact Or.inl ⟨_, rfl⟩
        | some v =>
          simp only [he]
          exact enumResourceTypes_shape _ _ he
      · split at h
        · cases h
        · split at h
          · cases h
            exact Or.inl ⟨_, rfl⟩
          · cases h
            exact Or.inl ⟨_, rfl⟩

/-- The mention resolver only delegates, so the same `type` shape holds. -/
theorem resolveMention_ok_type (lookup : String → LookupResponse)
    (l : List Char) (r : IResolvedResource)
    (h : resolveMention lookup l = ResolveResult.ok r) :
    (∃ s, r.type = TypeValue.str s) ∨ r.type = TypeValue.protoMember "constructor" := by
  unfold resolveMention at h
  split at h
  · exact resolveScreenName_ok_type _ _ _ h
  · split at h
    · exact resolveScreenName_ok_type _ _ _ h
    · exact resolveScreenName_ok_type _ _ _ h

/-- The numeric resolver only delegates, so the same `type` shape holds. -/
theorem resolveNumber_ok_type (lookup : String → LookupResponse)
    (n : Int) (r : IResolvedResource)
    (h : resolveNumber lookup n = ResolveResult.ok r) :
    (∃ s, r.type = TypeValue.str s) ∨ r.type = TypeValue.protoMember "constructor" := by
  simp only [resolveNumber] at h
  exact resolveScreenName_ok_type _ _ _ h

/-- The same `type` shape holds for the URL resolver. -/
theorem resolveUrl_ok_type (lookup : String → LookupResponse)
    (l : List Char) (r : IResolvedResource)
    (h : resolveUrl lookup l = ResolveResult.ok r) :
    (∃ s, r.type = TypeValue.str s) ∨ r.type = TypeValue.protoMember "constructor" := by
  have parsed : ∀ u : List Char, resolveUrlParsed lookup u = ResolveResult.ok r →
      (∃ s, r.type = TypeValue.str s) ∨ r.type = TypeValue.protoMember "constructor" := by
    intro u hu
    unfold resolveUrlParsed at hu
    split at hu
    · cases hu
    · split at hu
      · cases hu
      · split at hu
        · cases hu
          exact Or.inl ⟨_, rfl⟩
        · split at hu
          · cases hu
            exact Or.inl ⟨_, rfl⟩
          · exact resolveScreenName_ok_type _ _ _ hu
  exact parsed _ h

/-- Every fulfilled `type` of `resolve` is a string, except for the
prototype-colliding prefix `constructor`. -/
theorem resolve_ok_type (lookup : String → LookupResponse)
    (raw : RawResource) (r : IResolvedResource)
    (h : resolve lookup raw = ResolveResult.ok r) :
    (∃ s, r.type = TypeValue.str s) ∨ r.type = TypeValue.protoMember "constructor" := by
  simp only [resolve] at h
  split at h
  · cases h
  · split at h
    · exact resolveNumber_ok_type _ _ _ h
    · split at h
      · exact resolveMention_ok_type _ _ _ h
      · split at h
        · exact resolveUrl_ok_type _ _ _ h
        · exact resolveScreenName_ok_type _ _ _ h

/-- Only the URL resolver can raise the uncaught URL `TypeError`:
the screen-name resolver never does. -/
theorem resolveScreenName_no_typeError (lookup : String → LookupResponse)
    (l : List Char) : resolveScreenName lookup l ≠ ResolveResult.typeError := by
  intro h
  unfold resolveScreenName at h
  repeat' split at h
  all_goals cases h

/-! ## Claims -/

/-- C1 (counterexample): two parts of the claim fail.  The string `"a]"`
is routed to the mention resolver (the classifier's mention test accepts
it through the second `systemMentionRe` alternative), contains no sigil,
and the capture group used by the bracket branch is `undefined`, so the
grammar extraction does not succeed for every routed string.  And the
input `"vk.com/x?to=https://y"` contains `https://` mid-string, so the
unanchored `hasProtocolRe` suppresses the scheme defaulting and `new URL`
throws an uncaught `TypeError` — a failure mode outside the three error
kinds. -/
theorem C1_counterexample :
    classify "a]".data = Classification.mention ∧
    isUserMentionTest "a]".data = false ∧
    systemMentionTest "a]".data = true ∧
    systemMentionGroup1 "a]".data = none ∧
    resolve (fun _ => LookupResponse.list)
      (RawResource.str "vk.com/x?to=https://y") = ResolveResult.typeError := by
  decide

/-- C1 (amended): for every raw input, provided the collaborator only
reports non-negative object ids, `resolve` either fulfills with a resource
whose id is non-negative and whose `type` is a defined value — a string,
except for the prototype-colliding prefix `constructor`, where it is the
inherited `Object.prototype.constructor` function — or fails with one of
the three error kinds `INVALID_RESOURCE`, `INVALID_URL`,
`RESOURCE_NOT_FOUND`, or, only through the URL resolver when the
(possibly scheme-defaulted) string is not a parsable URL, throws an
uncaught `TypeError`.  Moreover a string routed to the mention resolver by
the bracket alternative may extract an undefined capture group, in which
case the code forwards the serialized `undefined` value to the screen-name
resolver instead of hitting an unreachable-assertion branch (shown here on
the input `"a]"`). -/
theorem C1_amended_total (lookup : String → LookupResponse)
    (hl : ∀ s t oid, lookup s = LookupResponse.record t oid → 0 ≤ oid)
    (raw : RawResource) :
    ((∃ r, resolve lookup raw = ResolveResult.ok r ∧ 0 ≤ r.id ∧
        ((∃ s, r.type = TypeValue.str s) ∨
          r.type = TypeValue.protoMember "constructor")) ∨
      (∃ e, resolve lookup raw = ResolveResult.error e ∧
        (e.code = ResourceErrorCode.INVALID_RESOURCE ∨
         e.code = ResourceErrorCode.INVALID_URL ∨
         e.code = ResourceErrorCode.RESOURCE_NOT_FOUND)) ∨
      resolve lookup raw = ResolveResult.typeError) ∧
    resolve lookup (RawResource.str "a]") =
      resolveScreenName lookup ("undefined".data) := by
  constructor
  · cases hres : resolve lookup raw with
    | ok r =>
      exact Or.inl ⟨r, rfl, resolve_ok_id lookup hl raw r hres,
        resolve_ok_type lookup raw r hres⟩
    | error e =>
      refine Or.inr (Or.inl ⟨e, rfl, ?_⟩)
      cases e with
      | mk code msg => cases code <;> simp
    | typeError => exact Or.inr (Or.inr rfl)
  · rfl

/-- C1 (witness): the amended theorem applied to the always-ambiguous
collaborator and the input `"durov"`. -/
theorem C1_witness :
    ((∃ r, resolve (fun _ => LookupResponse.list) (RawResource.str "durov") =
        ResolveResult.ok r ∧ 0 ≤ r.id ∧
        ((∃ s, r.type = TypeValue.str s) ∨
          r.type = TypeValue.protoMember "constructor")) ∨
      (∃ e, resolve (fun _ => LookupResponse.list) (RawResource.str "durov") =
        ResolveResult.error e ∧
        (e.code = ResourceErrorCode.INVALID_RESOURCE ∨
         e.code = ResourceErrorCode.INVALID_URL ∨
         e.code = ResourceErrorCode.RESOURCE_NOT_FOUND)) ∨
      resolve (fun _ => LookupResponse.list) (RawResource.str "durov") =
        ResolveResult.typeError) ∧
    resolve (fun _ => LookupResponse.list) (RawResource.str "a]") =
      resolveScreenName (fun _ => LookupResponse.list) ("undefined".data) :=
  C1_amended_total (fun _ => LookupResponse.list)
    (fun _ _ _ h => nomatch h) (RawResource.str "durov")

/-- C2 (counterexample): `resolve(0)` IS invalid — the integer zero is
falsy, so the resolver rejects it with `INVALID_RESOURCE` instead of
accepting it as a numeric ID. -/
theorem C2_counterexample :
    resolve (fun _ => LookupResponse.list) (RawResource.int 0) =
      ResolveResult.error ⟨ResourceErrorCode.INVALID_RESOURCE, "Resource is required"⟩ := by
  rfl

/-- C2 (amended): the integer zero and the empty string are both falsy and
trigger `INVALID_RESOURCE`; zero is resolvable only through its string
form `"0"`, which passes the falsy check and resolves numerically to
`{id: 0, type: "user"}`. -/
theorem C2_amended_zero (lookup : String → LookupResponse) :
    resolve lookup (RawResource.int 0) =
      ResolveResult.error ⟨ResourceErrorCode.INVALID_RESOURCE, "Resource is required"⟩ ∧
    resolve lookup (RawResource.str "") =
      ResolveResult.error ⟨ResourceErrorCode.INVALID_RESOURCE, "Resource is required"⟩ ∧
    resolve lookup (RawResource.str "0") =
      ResolveResult.ok ⟨0, none, TypeValue.str "user"⟩ :=
  ⟨rfl, rfl, rfl⟩

/-- C3 (counterexample): a whitespace-only string is NOT rejected with
`INVALID_RESOURCE` although it is zero-length after trimming — it passes
the falsy check, trims to the empty string and is sent to the remote
lookup, here resolving successfully. -/
theorem C3_counterexample :
    resolve (fun _ => LookupResponse.record "user" 42) (RawResource.str " ") =
      ResolveResult.ok ⟨42, none, TypeValue.str "user"⟩ := by
  rfl

/-- C3 (amended): `resolve` fails with `INVALID_RESOURCE` exactly when the
raw input is falsy before any conversion — the integer zero or the
literally empty string; trimming happens only after that check, so a
whitespace-only string is trimmed to empty and handed to the screen-name
resolver (and thence to the remote lookup) rather than rejected. -/
theorem C3_amended_invalid_iff (lookup : String → LookupResponse) (raw : RawResource) :
    ((∃ m, resolve lookup raw = ResolveResult.error ⟨ResourceErrorCode.INVALID_RESOURCE, m⟩) ↔
      (raw = RawResource.int 0 ∨ raw = RawResource.str "")) ∧
    resolve lookup (RawResource.str " ") = resolveScreenName lookup [] := by
  constructor
  · constructor
    · rintro ⟨m, hm⟩
      rcases resolve_error_code lookup raw _ hm with ⟨h1, h2⟩ | h1 | h1
      · exact (isFalsy_iff raw).mp h2
      · exact ResourceErrorCode.noConfusion (congrArg ResourceError.code h1)
      · exact ResourceErrorCode.noConfusion (congrArg ResourceError.code h1)
    · intro h
      have hf : isFalsy raw = true := (isFalsy_iff raw).mpr h
      simp only [resolve, hf, if_true]
      exact ⟨"Resource is required", rfl⟩
  · rfl

/-- C10: the falsy check precedes string conversion, so the string `"0"`
resolves through the numeric path to `{id: 0, type: "user"}` while the
integer `0` is rejected with `INVALID_RESOURCE` — the two forms of zero
behave differently. -/
theorem C10_zero_forms_differ (lookup : String → LookupResponse) :
    resolve lookup (RawResource.str "0") =
      ResolveResult.ok ⟨0, none, TypeValue.str "user"⟩ ∧
    resolve lookup (RawResource.int 0) =
      ResolveResult.error ⟨ResourceErrorCode.INVALID_RESOURCE, "Resource is required"⟩ ∧
    resolve lookup (RawResource.str "0") ≠ resolve lookup (RawResource.int 0) := by
  refine ⟨rfl, rfl, fun h => ?_⟩
  exact ResolveResult.noConfusion h

/-- C5 (counterexample): the claim's "for every non-negative integer"
fails at zero — `resolve(0)` is rejected by the falsy check before the
numeric resolver runs, while `resolve("id0")` succeeds, so the two are not
equal. -/
theorem C5_counterexample :
    resolve (fun _ => LookupResponse.list) (RawResource.int 0) ≠
      resolve (fun _ => LookupResponse.list) (RawResource.str "id0") := by
  decide

/-- C5 (amended): for every negative integer `n`, `resolve(n)` equals
`resolve("club" + (-n))`; for every positive integer `n`, `resolve(n)`
equals `resolve("id" + n)`; the numeric resolver itself always delegates
to the screen-name resolver and would re-dispatch `0` as `id0`, but
`resolve(0)` never reaches it (the falsy check rejects zero first);
`resolve(-123) = {id: 123, type: "group"}` and
`resolve(123) = {id: 123, type: "user"}`. -/
theorem C5_amended_numeric (lookup : String → LookupResponse) (n : Int) :
    (n < 0 → resolve lookup (RawResource.int n) =
      resolve lookup (RawResource.str ⟨"club".data ++ jsIntChars (-n)⟩)) ∧
    (0 < n → resolve lookup (RawResource.int n) =
      resolve lookup (RawResource.str ⟨"id".data ++ jsIntChars n⟩)) ∧
    (∃ s, resolveNumber lookup n = resolveScreenName lookup s) ∧
    resolveNumber lookup 0 = resolveScreenName lookup ("id".data ++ jsIntChars 0) ∧
    resolve lookup (RawResource.int (-123)) =
      ResolveResult.ok ⟨123, none, TypeValue.str "group"⟩ ∧
    resolve lookup (RawResource.int 123) =
      ResolveResult.ok ⟨123, none, TypeValue.str "user"⟩ := by
  have hnumres : ∀ m : Int, m ≠ 0 →
      resolve lookup (RawResource.int m) = resolveNumber lookup m := by
    intro m hm
    have hfalsy : isFalsy (RawResource.int m) = false := by
      simp only [isFalsy, beq_eq_false_iff_ne, ne_eq]
      exact hm
    rw [resolve_dispatch lookup _ hfalsy]
    simp only [jsStringOfRaw]
    rw [jsTrim_jsIntChars]
    have hcls : classify (jsIntChars m) = Classification.number := by
      simp [classify, numberReTest_jsIntChars]
    rw [hcls, strToInt_jsIntChars]
  refine ⟨?_, ?_, ?_, ?_, ?_, ?_⟩
  · intro hneg
    rw [hnumres n (by omega)]
    have hdig : jsIntChars (-n) = natToDec (-n).toNat := by
      simp only [jsIntChars, if_neg (by omega : ¬(-n < 0))]
    rw [resolve_str_alnum lookup ("club".data) (jsIntChars (-n)) (by decide) (by decide)
      (by rw [hdig]; exact natToDec_all_digit _)]
    simp only [resolveNumber]
    rw [if_pos hneg, if_pos hneg]
  · intro hpos
    rw [hnumres n (by omega)]
    have hdig : jsIntChars n = natToDec n.toNat := by
      simp only [jsIntChars, if_neg (by omega : ¬(n < 0))]
    rw [resolve_str_alnum lookup ("id".data) (jsIntChars n) (by decide) (by decide)
      (by rw [hdig]; exact natToDec_all_digit _)]
    simp only [resolveNumber]
    rw [if_neg (by omega : ¬(n < 0)), if_neg (by omega : ¬(n < 0))]
  · simp only [resolveNumber]
    exact ⟨_, rfl⟩
  · rfl
  · rfl
  · rfl

/-- C5 (witness): the amended theorem applied at `n = -123` with the
always-ambiguous collaborator, discharging the sign hypotheses. -/
theorem C5_witness :
    (-123 : Int) < 0 ∧
    resolve (fun _ => LookupResponse.list) (RawResource.int (-123)) =
      resolve (fun _ => LookupResponse.list)
        (RawResource.str ⟨"club".data ++ jsIntChars (-(-123))⟩) :=
  ⟨by decide,
    (C5_amended_numeric (fun _ => LookupResponse.list) (-123)).1 (by decide)⟩

/-- C6: the alias table behaves as claimed on its four keys and an unknown
prefix such as `xyz` does pass through verbatim, but the claimed universal
verbatim passthrough is broken by the code at the prefix `constructor`:
the property lookup `enumResourceTypes[type]` finds the inherited
`Object.prototype.constructor`, which is not `undefined`, so the program
substitutes that function — not the string `"constructor"` — as `type`,
contradicting its own `Record<string, ResourceType>` annotation.  The
final conjunct records that the substituted value is not a string. -/
theorem C6_prototype_collision (lookup : String → LookupResponse) :
    resolve lookup (RawResource.str "club15") =
      ResolveResult.ok ⟨15, none, TypeValue.str "group"⟩ ∧
    resolve lookup (RawResource.str "public15") =
      ResolveResult.ok ⟨15, none, TypeValue.str "group"⟩ ∧
    resolve lookup (RawResource.str "app7") =
      ResolveResult.ok ⟨7, none, TypeValue.str "application"⟩ ∧
    resolve lookup (RawResource.str "xyz9") =
      ResolveResult.ok ⟨9, none, TypeValue.str "xyz"⟩ ∧
    resolve lookup (RawResource.str "constructor1") =
      ResolveResult.ok ⟨1, none, TypeValue.protoMember "constructor"⟩ ∧
    (∀ s : String, TypeValue.protoMember "constructor" ≠ TypeValue.str s) :=
  ⟨rfl, rfl, rfl, rfl, rfl, fun _ h => TypeValue.noConfusion h⟩

/-- C7: the sigil mentions `@durov` and `*durov` resolve exactly like the
bare screen name `durov` (one leading character is stripped and the rest
delegated), the bracket mention `[club1|Label]` resolves exactly like
`club1`, and `club1` resolves to `{id: 1, type: "group"}`. -/
theorem C7_mention_delegation (lookup : String → LookupResponse) :
    resolve lookup (RawResource.str "@durov") = resolve lookup (RawResource.str "durov") ∧
    resolve lookup (RawResource.str "*durov") = resolve lookup (RawResource.str "durov") ∧
    resolve lookup (RawResource.str "[club1|Label]") =
      resolve lookup (RawResource.str "club1") ∧
    resolve lookup (RawResource.str "club1") =
      ResolveResult.ok ⟨1, none, TypeValue.str "group"⟩ :=
  ⟨rfl, rfl, rfl, rfl⟩

/-- C8: a platform URL without a scheme is defaulted to `https` before
parsing; an empty or root path fails with `INVALID_URL` and message
"URL should contain path" (both `vk.com` and `https://vk.com/` do);
otherwise the query string is checked against the attachment grammar and
then the owner-embed grammar, in that order, with the same extraction as
the screen-name resolver, and if neither matches the leading path
separator is stripped and the path is delegated as a screen name, so
`resolve("vk.com/wall-1_2") = {id: 2, ownerId: -1, type: "wall"}`.
An unparsable URL instead surfaces the `TypeError` of `new URL`. -/
theorem C8_url (lookup : String → LookupResponse) :
    resolve lookup (RawResource.str "vk.com") =
      ResolveResult.error ⟨ResourceErrorCode.INVALID_URL, "URL should contain path"⟩ ∧
    resolve lookup (RawResource.str "https://vk.com/") =
      ResolveResult.error ⟨ResourceErrorCode.INVALID_URL, "URL should contain path"⟩ ∧
    resolve lookup (RawResource.str "vk.com/wall-1_2") =
      ResolveResult.ok ⟨2, some (-1), TypeValue.str "wall"⟩ ∧
    (∀ l : List Char, hasProtocolTest l = false →
      resolveUrl lookup l = resolveUrlParsed lookup ("https://".data ++ l)) ∧
    (∀ l : List Char, resolveUrlParsed lookup l =
      (match urlParse l with
        | none => ResolveResult.typeError
        | some ps =>
          if ps.1 = ['/'] then
            ResolveResult.error ⟨ResourceErrorCode.INVALID_URL, "URL should contain path"⟩
          else
            match scanAttach ps.2 with
            | some m => ResolveResult.ok (resolveOwnerResource m)
            | none =>
              match scanOwner ps.2 with
              | some m => ResolveResult.ok (resolveOwnerResource m)
              | none => resolveScreenName lookup (ps.1.drop 1))) := by
  refine ⟨rfl, rfl, rfl, ?_, fun l => rfl⟩
  intro l hp
  simp only [resolveUrl, hp, Bool.false_eq_true, if_false]

/-- C8 (witness): the scheme-defaulting part applied to `vk.com`, which
has no protocol. -/
theorem C8_witness :
    hasProtocolTest "vk.com".data = false ∧
    resolveUrl (fun _ => LookupResponse.list) "vk.com".data =
      resolveUrlParsed (fun _ => LookupResponse.list)
        ("https://".data ++ "vk.com".data) :=
  ⟨by decide,
    (C8_url (fun _ => LookupResponse.list)).2.2.2.1 "vk.com".data (by decide)⟩

/-- C9: when none of the three local grammars matches, the screen-name
resolver invokes the external lookup with the raw string; a list response
(the ambiguous/empty sentinel) fails with `RESOURCE_NOT_FOUND` and message
"Resource not found"; a record `{type, object_id}` yields
`{id: object_id, type: "group"}` when the reported type is `"page"` and
otherwise passes the reported type through unchanged, with no `ownerId`. -/
theorem C9_lookup_fallback (lookup : String → LookupResponse) (l : List Char)
    (h1 : scanAttach l = none) (h2 : scanOwner l = none)
    (h3 : parseResourceMatch l = none) :
    (lookup ⟨l⟩ = LookupResponse.list →
      resolveScreenName lookup l =
        ResolveResult.error ⟨ResourceErrorCode.RESOURCE_NOT_FOUND, "Resource not found"⟩) ∧
    (∀ oid : Int, lookup ⟨l⟩ = LookupResponse.record "page" oid →
      resolveScreenName lookup l =
        ResolveResult.ok ⟨oid, none, TypeValue.str "group"⟩) ∧
    (∀ t oid, lookup ⟨l⟩ = LookupResponse.record t oid → t ≠ "page" →
      resolveScreenName lookup l = ResolveResult.ok ⟨oid, none, TypeValue.str t⟩) := by
  have hbase : resolveScreenName lookup l =
      (match lookup ⟨l⟩ with
        | LookupResponse.list =>
          ResolveResult.error ⟨ResourceErrorCode.RESOURCE_NOT_FOUND, "Resource not found"⟩
        | LookupResponse.record t oid =>
          if t = "page" then ResolveResult.ok ⟨oid, none, TypeValue.str "group"⟩
          else ResolveResult.ok ⟨oid, none, TypeValue.str t⟩) := by
    simp only [resolveScreenName, h1, h2, h3]
  refine ⟨?_, ?_, ?_⟩
  · intro hr
    rw [hbase, hr]
  · intro oid hr
    rw [hbase, hr]
    simp
  · intro t oid hr hne
    rw [hbase, hr]
    simp [hne]

/-- C9 (witness): a page-typed remote record for `durov` remaps to the
group namespace, after discharging the three grammar-mismatch
hypotheses. -/
theorem C9_witness :
    scanAttach "durov".data = none ∧
    scanOwner "durov".data = none ∧
    parseResourceMatch "durov".data = none ∧
    resolveScreenName (fun _ => LookupResponse.record "page" 42) "durov".data =
      ResolveResult.ok ⟨42, none, TypeValue.str "group"⟩ :=
  ⟨by decide, by decide, by decide,
    (C9_lookup_fallback (fun _ => LookupResponse.record "page" 42) "durov".data
      (by decide) (by decide) (by decide)).2.1 42 rfl⟩

/-- C4 (counterexample): the claim's mention criterion ("begins with `*`
or `@`, or is a bracketed mention") disagrees with the code: `foo@bar`
neither begins with a sigil nor has any bracket, yet the classifier routes
it to the mention resolver because `isUserMentionRe` is unanchored, and
the mention resolver then strips the first character and looks up
`oo@bar`. -/
theorem C4_counterexample :
    specMentionRoute "foo@bar".data = false ∧
    classify "foo@bar".data = Classification.mention ∧
    resolve
      (fun s => if s = "oo@bar" then LookupResponse.record "user" 1 else LookupResponse.list)
      (RawResource.str "foo@bar") =
      ResolveResult.ok ⟨1, none, TypeValue.str "user"⟩ := by
  refine ⟨by decide, by decide, by decide⟩

/-- C4 (amended): classification of a trimmed non-empty string follows the
first-match-wins precedence number → mention → URL → screen name, where
the mention stage fires iff the string contains a `*` or `@` anywhere or
matches the loose `systemMentionRe` pattern (not only when it begins with
a sigil or is fully bracketed), the URL stage fires iff the earlier stages
declined and the string starts with the (optionally schemed, optionally
`m.`-prefixed) platform domain, and `resolve` dispatches to the resolver
selected by this classification. -/
theorem C4_amended_classifier (lookup : String → LookupResponse) (l : List Char)
    (htrim : jsTrim l = l) (hne : l ≠ []) :
    (classify l = Classification.number ↔ numberReTest l = true) ∧
    (classify l = Classification.mention ↔
      (numberReTest l = false ∧
        (isUserMentionTest l = true ∨ systemMentionTest l = true))) ∧
    (classify l = Classification.url ↔
      (numberReTest l = false ∧ isUserMentionTest l = false ∧
        systemMentionTest l = false ∧ isVKUrlTest l = true)) ∧
    (classify l = Classification.screenName ↔
      (numberReTest l = false ∧ isUserMentionTest l = false ∧
        systemMentionTest l = false ∧ isVKUrlTest l = false)) ∧
    resolve lookup (RawResource.str ⟨l⟩) =
      (match classify l with
        | Classification.number => resolveNumber lookup (strToInt l)
        | Classification.mention => resolveMention lookup l
        | Classification.url => resolveUrl lookup l
        | Classification.screenName => resolveScreenName lookup l) := by
  have hfalsy : isFalsy (RawResource.str ⟨l⟩) = false := by
    cases l with
    | nil => exact absurd rfl hne
    | cons a b => rfl
  have hdisp : resolve lookup (RawResource.str ⟨l⟩) =
      (match classify l with
        | Classification.number => resolveNumber lookup (strToInt l)
        | Classification.mention => resolveMention lookup l
        | Classification.url => resolveUrl lookup l
        | Classification.screenName => resolveScreenName lookup l) := by
    have h0 := resolve_dispatch lookup (RawResource.str ⟨l⟩) hfalsy
    have e1 : jsTrim (jsStringOfRaw (RawResource.str ⟨l⟩)) = l := htrim
    rw [e1] at h0
    exact h0
  refine ⟨?_, ?_, ?_, ?_, hdisp⟩ <;>
    by_cases h1 : numberReTest l = true <;>
    by_cases h2 : isUserMentionTest l = true <;>
    by_cases h3 : systemMentionTest l = true <;>
    by_cases h4 : isVKUrlTest l = true <;>
    simp [classify, h1, h2, h3, h4]

/-- C4 (witness): the amended theorem applied to the trimmed non-empty
string `@x`, which is classified as a mention. -/
theorem C4_witness :
    jsTrim "@x".data = "@x".data ∧
    ((classify "@x".data = Classification.number ↔ numberReTest "@x".data = true) ∧
      (classify "@x".data = Classification.mention ↔
        (numberReTest "@x".data = false ∧
          (isUserMentionTest "@x".data = true ∨ systemMentionTest "@x".data = true))) ∧
      (classify "@x".data = Classification.url ↔
        (numberReTest "@x".data = false ∧ isUserMentionTest "@x".data = false ∧
          systemMentionTest "@x".data = false ∧ isVKUrlTest "@x".data = true)) ∧
      (classify "@x".data = Classification.screenName ↔
        (numberReTest "@x".data = false ∧ isUserMentionTest "@x".data = false ∧
          systemMentionTest "@x".data = false ∧ isVKUrlTest "@x".data = false)) ∧
      resolve (fun _ => LookupResponse.list) (RawResource.str ⟨"@x".data⟩) =
        (match classify "@x".data with
          | Classification.number =>
            resolveNumber (fun _ => LookupResponse.list) (strToInt "@x".data)
          | Classification.mention =>
            resolveMention (fun _ => LookupResponse.list) "@x".data
          | Classification.url => resolveUrl (fun _ => LookupResponse.list) "@x".data
          | Classification.screenName =>
            resolveScreenName (fun _ => LookupResponse.list) "@x".data)) :=
  ⟨by decide,
    C4_amended_classifier (fun _ => LookupResponse.list) "@x".data (by decide) (by decide)⟩
